import Mathlib

/-!
Verification of the benchmark-resolution and result-normalization engine of
the Nessus XCCDF to CKLB converter (`nessus_parser.py`).

The Python code works on `xml.etree.ElementTree` documents.  We embed the
relevant fragment shallowly: an XML element is a tag string (in ElementTree
form, i.e. a namespaced tag reads `\x7buri\x7dlocal`), an attribute
association list, optional text and a child list.  The ElementTree queries
used by the source (`find`/`findall`/`findtext` with `.//`-prefixed or
direct-child paths, `iter`, `get`) are modelled below; processing of raw
bytes (`ET.fromstring`, `zipfile`) is abstracted by oracle functions from
byte strings, supplied as parameters.
-/

/-- Python `str.lower()` (ASCII as used by the source's filenames/statuses). -/
def pyLower (s : String) : String := String.mk (s.data.map Char.toLower)

/-- Python `str.endswith(pat)`. -/
def pyEndsWith (s pat : String) : Bool := pat.data.reverse.isPrefixOf s.data.reverse

/-- Helper for Python's substring test: does `pat` occur inside the list? -/
def containsSub (pat : List Char) : List Char → Bool
  | [] => pat.isPrefixOf []
  | c :: cs => pat.isPrefixOf (c :: cs) || containsSub pat cs

/-- Python `pat in s` (substring containment). -/
def pyContains (s pat : String) : Bool := containsSub pat.data s.data

/-- Characters of a basename: everything after the last `/` (POSIX, as the
source runs `os.path.basename` on zip entry names and Unix paths). -/
def basenameAux (acc : List Char) : List Char → List Char
  | [] => acc
  | c :: cs => if c = '/' then basenameAux [] cs else basenameAux (acc ++ [c]) cs

/-- Python `os.path.basename`. -/
def pyBasename (p : String) : String := String.mk (basenameAux [] p.data)

/-- Take characters up to (excluding) the first closing brace, modelling
`tag.split(sep)[0]` for the namespace separator. -/
def takeUntilClose : List Char → List Char
  | [] => []
  | c :: cs => if c = '\x7d' then [] else c :: takeUntilClose cs

/-- `root.tag.split(sep)[0][1:]`: the namespace URI of a namespaced tag. -/
def extractUri (s : String) : String := String.mk (takeUntilClose (s.data.drop 1))

/-- Python `tag.startswith(brace)`. -/
def startsBrace (s : String) : Bool :=
  match s.data with
  | [] => false
  | c :: _ => c == '\x7b'

/-- An XML element as seen through `xml.etree.ElementTree`: ElementTree-style
tag (namespaced tags read `\x7buri\x7dlocal`), attribute list, text, children. -/
inductive Element where
  | mk (tag : String) (attrs : List (String × String)) (text : Option String) (children : List Element)

def Element.tag : Element → String
  | .mk t _ _ _ => t

def Element.attrs : Element → List (String × String)
  | .mk _ a _ _ => a

def Element.text : Element → Option String
  | .mk _ _ x _ => x

def Element.children : Element → List Element
  | .mk _ _ _ cs => cs

mutual

/-- `elem.iter()`: the element followed by all descendants, in document order. -/
def Element.iterAll : Element → List Element
  | .mk t a x cs => .mk t a x cs :: iterList cs

def iterList : List Element → List Element
  | [] => []
  | e :: es => e.iterAll ++ iterList es

end

/-- All strict descendants in document order (the elements a `.//` path visits). -/
def Element.descendants (e : Element) : List Element := iterList e.children

/-- The fully qualified ElementTree tag `\x7buri\x7dlocal` that a namespace
table maps an `xccdf:local` path to. -/
def qtag (uri loc : String) : String := String.mk ('\x7b' :: uri.data ++ '\x7d' :: loc.data)

/-- `elem.get(key, default)` with an explicit option result. -/
def attrGet (e : Element) (k : String) : Option String := e.attrs.lookup k

/-- `elem.get(key, default)`. -/
def attrGetD (e : Element) (k d : String) : String := (attrGet e k).getD d

/-- `elem.findall(descPath, ns)` for a `.//`-prefixed path: all descendants
with the qualified tag, in document order. -/
def findallDesc (e : Element) (t : String) : List Element :=
  e.descendants.filter (fun c => c.tag == t)

/-- `elem.find(descPath, ns)` for a `.//`-prefixed path: first match. -/
def findDesc (e : Element) (t : String) : Option Element :=
  e.descendants.find? (fun c => c.tag == t)

/-- `elem.find(childPath, ns)` for a direct-child path: first matching child. -/
def findChild (e : Element) (t : String) : Option Element :=
  e.children.find? (fun c => c.tag == t)

/-- `elem.findtext(descPath, default, ns)`: text of the first matching
descendant; an element found with absent text yields the empty string, no
element at all yields the default. -/
def findtextDescD (e : Element) (t d : String) : String :=
  match findDesc e t with
  | none => d
  | some c => c.text.getD ""

/-- `elem.findtext(childPath, default, ns)` for a direct-child path. -/
def findtextChildD (e : Element) (t d : String) : String :=
  match findChild e t with
  | none => d
  | some c => c.text.getD ""

/-- Python `found or fallback` on Elements: an `ElementTree` element is falsy
when it has no children, so a childless find result is replaced by the
fallback, as is an unsuccessful find. -/
def pyOrElem (o : Option Element) (d : Element) : Element :=
  match o with
  | none => d
  | some e => if e.children.isEmpty then d else e

/-- Truthiness of an optional string (`None` and the empty string are falsy). -/
def pyTruthyStr : Option String → Bool
  | none => false
  | some s => !(s == "")

/-- Python dict lookup `d.get(k)` on our association-list model of a dict. -/
def dictGet {α : Type} (d : List (String × α)) (k : String) : Option α :=
  List.lookup k d

/-- Python `k in d`. -/
def dictContains {α : Type} (d : List (String × α)) (k : String) : Bool :=
  (dictGet d k).isSome

/-- Python dict assignment `d[k] = v`: replaces the binding in place when the
key is present, appends otherwise (keys stay unique when built from `[]`). -/
def dictSet {α : Type} (d : List (String × α)) (k : String) (v : α) : List (String × α) :=
  if dictContains d k then d.map (fun p => if p.1 == k then (k, v) else p) else d ++ [(k, v)]

/-- Zip-entry recognition of a benchmark filename (`load_benchmark_files`,
lines 70 and 84): `name.endswith(benchmark suffix) or (name.endswith(xml
extension) and keyword in name.lower())`.  Note that only the keyword test
lower-cases. -/
def isBenchmarkName (name : String) : Bool :=
  pyEndsWith name "xccdf.xml" || (pyEndsWith name ".xml" && pyContains (pyLower name) "xccdf")

/-- The claim's reading of the recognition predicate, with every comparison
performed case-insensitively.  Stated from the spec's words, for comparison
with `isBenchmarkName`. -/
def isBenchmarkNameCI (name : String) : Bool :=
  pyEndsWith (pyLower name) "xccdf.xml" ||
    (pyEndsWith (pyLower name) ".xml" && pyContains (pyLower name) "xccdf")

/-- One archive found by the `*.zip` glob: either unreadable (the per-archive
`except` reports and continues) or a list of (entry name, entry bytes). -/
inductive ZipSource where
  | bad
  | ok (entries : List (String × String))

/-- The benchmark directory as the three globs of `load_benchmark_files` see
it: the `*.zip` archives, the loose `*xccdf*.xml` files of the directory
itself, and the recursive `**/*xccdf*.xml` matches, each as (path, bytes). -/
structure BenchmarkDir where
  zips : List ZipSource
  flatXml : List (String × String)
  recXml : List (String × String)

/-- Scan of one nested archive's entry list: every recognized benchmark name
is cached under its basename by plain dict assignment; nothing else (in
particular no entry that is itself an archive) is touched. -/
def cacheNestedFold (c : List (String × String)) (nested : List (String × String)) :
    List (String × String) :=
  nested.foldl
    (fun c p => if isBenchmarkName p.1 then dictSet c (pyBasename p.1) p.2 else c) c

/-- Processing of one top-level archive entry (`load_benchmark_files` inner
loop): recognized benchmark names are cached by assignment; an entry named
like an archive is opened in memory via the `readZip` oracle, a corrupt one
(`none`) is skipped, a readable one is scanned one level deep. -/
def cacheZipEntry (readZip : String → Option (List (String × String)))
    (c : List (String × String)) (p : String × String) : List (String × String) :=
  if isBenchmarkName p.1 then dictSet c (pyBasename p.1) p.2
  else if pyEndsWith p.1 ".zip" then
    match readZip p.2 with
    | none => c
    | some nested => cacheNestedFold c nested
  else c

/-- The cache after the archive pass (step a). -/
def cacheFromZips (readZip : String → Option (List (String × String)))
    (zips : List ZipSource) : List (String × String) :=
  zips.foldl
    (fun c z =>
      match z with
      | ZipSource.bad => c
      | ZipSource.ok entries => entries.foldl (cacheZipEntry readZip) c) []

/-- The cache after the loose-file pass (step b): every `*xccdf*.xml` match of
the directory itself is cached by plain dict assignment. -/
def cacheAfterFlat (readZip : String → Option (List (String × String)))
    (zips : List ZipSource) (flat : List (String × String)) : List (String × String) :=
  flat.foldl (fun c p => dictSet c (pyBasename p.1) p.2) (cacheFromZips readZip zips)

/-- `load_benchmark_files`: archive pass, then loose files, then the recursive
subdirectory pass, which alone skips basenames that are already cached. -/
def load_benchmark_files (readZip : String → Option (List (String × String)))
    (dir : BenchmarkDir) : List (String × String) :=
  dir.recXml.foldl
    (fun c p => if dictContains c (pyBasename p.1) then c else dictSet c (pyBasename p.1) p.2)
    (cacheAfterFlat readZip dir.zips dir.flatXml)

/-- The claim's reading of `load_benchmark_files`, stated from the spec's
first-found-wins wording: no pass ever overwrites an existing cache entry.
Defined only for comparison with `load_benchmark_files`. -/
def loadBenchmarkFilesFirstWins (readZip : String → Option (List (String × String)))
    (dir : BenchmarkDir) : List (String × String) :=
  let setIfAbsent := fun (c : List (String × String)) (k v : String) =>
    if dictContains c k then c else dictSet c k v
  let zipStep := fun (c : List (String × String)) (p : String × String) =>
    if isBenchmarkName p.1 then setIfAbsent c (pyBasename p.1) p.2
    else if pyEndsWith p.1 ".zip" then
      match readZip p.2 with
      | none => c
      | some nested =>
          nested.foldl
            (fun c q => if isBenchmarkName q.1 then setIfAbsent c (pyBasename q.1) q.2 else c) c
    else c
  let afterZips := dir.zips.foldl
    (fun c z =>
      match z with
      | ZipSource.bad => c
      | ZipSource.ok entries => entries.foldl zipStep c) []
  let afterFlat := dir.flatXml.foldl (fun c p => setIfAbsent c (pyBasename p.1) p.2) afterZips
  dir.recXml.foldl (fun c p => setIfAbsent c (pyBasename p.1) p.2) afterFlat

/-- The two hard-coded XCCDF namespace URIs of the source. -/
def xccdf11 : String := "http://checklists.nist.gov/xccdf/1.1"

/-- The XCCDF 1.2 namespace URI. -/
def xccdf12 : String := "http://checklists.nist.gov/xccdf/1.2"

/-- Namespace derivation (`parse_nessus_xccdf_results`, lines 162-165): the
alias table defaults to the 1.1 URI and is replaced by the root tag's own URI
when the tag is namespaced.  We carry just the URI the single alias maps to. -/
def nsOf (root : Element) : String :=
  if startsBrace root.tag then extractUri root.tag else xccdf11

/-- A rule definition as built while indexing a benchmark (`rule_definitions`
entries, lines 295-307). -/
structure RuleDef where
  rule_id : String
  group_id : String
  vuln_id : String
  group_title : String
  rule_title : String
  severity : String
  description : String
  version : String
  check_content : String
  fix_text : String
  cci_ref : String
deriving DecidableEq, Repr

/-- A normalized finding (one `result` dict appended to `results`). -/
structure Finding where
  rule_id : String
  vuln_id : String
  group_id : String
  group_title : String
  rule_title : String
  severity : String
  description : String
  check_content : String
  fix_text : String
  rule_ver : String
  cci_ref : String
  status : String
  finding_details : String
  comments : String
  nessus_result : String
deriving DecidableEq, Repr

/-- The `target_info` dict. -/
structure TargetInfo where
  hostname : String
  ip_address : String
  start_time : String
  end_time : String
deriving DecidableEq, Repr

/-- Everything `parse_nessus_xccdf_results` returns. -/
structure ParseOutput where
  target : TargetInfo
  stig_id : String
  stig_title : String
  results : List Finding
deriving DecidableEq, Repr

/-- The ways `parse_nessus_xccdf_results` can raise: the explicit
`ValueError` for a missing TestResult, and a `ParseError` escaping from
`ET.fromstring` on malformed bytes. -/
inductive ParseError where
  | noTestResult
  | xmlError
deriving DecidableEq, Repr

/-- The fixed scanner-status table (`status_map`, lines 273-283). -/
def status_map : List (String × String) :=
  [("pass", "not_a_finding"), ("fail", "open"), ("error", "open"),
   ("unknown", "not_reviewed"), ("notapplicable", "not_applicable"),
   ("notchecked", "not_reviewed"), ("notselected", "not_reviewed"),
   ("informational", "not_reviewed"), ("fixed", "not_a_finding")]

/-- `status_map.get(result_status, fallback)` (line 356). -/
def statusMapGet (s : String) : String := (dictGet status_map s).getD "not_reviewed"

/-- The raw normalized scanner status of one rule-result (line 338): direct
child `result` text, defaulting to `unknown` when absent, lower-cased. -/
def rawStatus (rr : Element) (ns : String) : String :=
  pyLower (findtextChildD rr (qtag ns "result") "unknown")

/-- The placeholder rule definition synthesized for an unmatched `idref`
(lines 341-353). -/
def placeholderRuleDef (idref : String) : RuleDef :=
  { rule_id := idref, vuln_id := idref, group_id := idref, group_title := "",
    rule_title := idref, severity := "medium", description := "",
    check_content := "", fix_text := "", version := "", cci_ref := "" }

/-- The CCI filter (lines 323-325): `ident.get(sys)` truthy and the keyword
in its lower-cased value. -/
def cciCond (ident : Element) : Bool :=
  pyTruthyStr (attrGet ident "system") && pyContains (pyLower (attrGetD ident "system" "")) "cci"

/-- One rule definition from a `Rule` element under a group (lines 292-326). -/
def ruleDefOf (ns gid gtitle : String) (rule : Element) : RuleDef :=
  let check_content :=
    match findDesc rule (qtag ns "check") with
    | none => ""
    | some ce =>
      match findDesc ce (qtag ns "check-content") with
      | none => ""
      | some cc => cc.text.getD ""
  let fix_text :=
    match findDesc rule (qtag ns "fixtext") with
    | none => ""
    | some fe => fe.text.getD ""
  let refs := (findallDesc rule (qtag ns "ident")).filterMap
    (fun i => if cciCond i then some (i.text.getD "") else none)
  { rule_id := attrGetD rule "id" "", group_id := gid, vuln_id := gid, group_title := gtitle,
    rule_title := findtextChildD rule (qtag ns "title") "",
    severity := attrGetD rule "severity" "medium",
    description := findtextChildD rule (qtag ns "description") "",
    version := findtextDescD rule (qtag ns "version") "",
    check_content := check_content, fix_text := fix_text,
    cci_ref := if refs.isEmpty then "" else String.intercalate ", " refs }

/-- The rule index (lines 286-326): for every `Group` descendant of the
benchmark and every `Rule` descendant of the group, a dict entry keyed by the
rule id; a repeated id overwrites the earlier entry. -/
def buildRuleDefs (benchmark : Element) (ns : String) : List (String × RuleDef) :=
  (findallDesc benchmark (qtag ns "Group")).foldl
    (fun acc group =>
      let gid := attrGetD group "id" ""
      let gtitle := findtextChildD group (qtag ns "title") ""
      (findallDesc group (qtag ns "Rule")).foldl
        (fun acc2 rule => dictSet acc2 (attrGetD rule "id" "") (ruleDefOf ns gid gtitle rule))
        acc)
    []

/-- One normalized finding from one rule-result (loop body, lines 336-392). -/
def processRuleResult (defs : List (String × RuleDef)) (ns : String) (rr : Element) : Finding :=
  let rule_idref := attrGetD rr "idref" ""
  let result_status := rawStatus rr ns
  let rule_def := (dictGet defs rule_idref).getD (placeholderRuleDef rule_idref)
  let finding_details :=
    match findDesc rr (qtag ns "check") with
    | none => ""
    | some check_elem =>
      match findDesc check_elem (qtag ns "check-content-ref") with
      | none => ""
      | some ccr => "Check performed: " ++ attrGetD ccr "name" ""
  let comments :=
    match findDesc rr (qtag ns "message") with
    | none => ""
    | some m =>
      match m.text with
      | none => ""
      | some t => if t == "" then "" else t
  { rule_id := rule_def.rule_id, vuln_id := rule_def.vuln_id, group_id := rule_def.group_id,
    group_title := rule_def.group_title, rule_title := rule_def.rule_title,
    severity := rule_def.severity, description := rule_def.description,
    check_content := rule_def.check_content, fix_text := rule_def.fix_text,
    rule_ver := rule_def.version, cci_ref := rule_def.cci_ref,
    status := statusMapGet result_status, finding_details := finding_details,
    comments := comments, nessus_result := result_status }

/-- Does the candidate benchmark lack groups (`benchmark is None or
len(benchmark.findall(groupPath, ns)) == 0`, lines 176 and 217)? -/
def bmGroupsEmpty (bm : Option Element) (ns : String) : Bool :=
  match bm with
  | none => true
  | some b => (findallDesc b (qtag ns "Group")).isEmpty

/-- The TestResult used while hunting for the external reference (lines
181-184): the root itself when its tag mentions TestResult, else the first
qualified descendant. -/
def refTestResult (root : Element) (ns : String) : Option Element :=
  if pyContains root.tag "TestResult" then some root
  else findDesc root (qtag ns "TestResult")

/-- The benchmark-reference element inside TestResult (lines 188-190):
qualified descendant search, then qualified direct-child search. -/
def refBenchmarkElem (tr : Element) (ns : String) : Option Element :=
  match findDesc tr (qtag ns "benchmark") with
  | some e => some e
  | none => findChild tr (qtag ns "benchmark")

/-- Loading an external benchmark document (lines 199-206 and 219-226): the
alias table is re-pointed at the loaded root's URI when its tag is
namespaced, and the benchmark becomes its `Benchmark` descendant, or the
loaded root itself when that search fails or yields a childless element. -/
def resolveExternalDoc (broot : Element) (ns : String) : Element × String :=
  let ns2 := if startsBrace broot.tag then extractUri broot.tag else ns
  (pyOrElem (findDesc broot (qtag ns2 "Benchmark")) broot, ns2)

/-- Second external stage (lines 217-226): explicitly supplied benchmark
bytes, used only when the benchmark is still absent or group-less and the
bytes are truthy. -/
def resolveStage2 (fromstring : String → Option Element) (benchmark_bytes : Option String)
    (bm : Option Element) (ns : String) : Except ParseError (Option Element × String) :=
  if bmGroupsEmpty bm ns then
    match benchmark_bytes with
    | none => .ok (bm, ns)
    | some bb =>
      if bb == "" then .ok (bm, ns)
      else
        match fromstring bb with
        | none => .error ParseError.xmlError
        | some broot =>
          let p := resolveExternalDoc broot ns
          .ok (some p.1, p.2)
  else .ok (bm, ns)

/-- Benchmark resolution (lines 162-230): embedded benchmark with groups wins
untouched; otherwise the external reference is chased through the cache, then
explicitly supplied bytes, and finally the scan root itself stands in.  The
returned string is the namespace URI in effect after resolution — a single
binding, reassigned when an external document is loaded. -/
def resolveBenchmark (cache : List (String × String)) (fromstring : String → Option Element)
    (benchmark_bytes : Option String) (root : Element) : Except ParseError (Element × String) :=
  let ns0 := nsOf root
  let benchmark0 := findDesc root (qtag ns0 "Benchmark")
  if bmGroupsEmpty benchmark0 ns0 then
    let afterRef : Except ParseError (Option Element × String) :=
      match refTestResult root ns0 with
      | none => .ok (benchmark0, ns0)
      | some tr =>
        match refBenchmarkElem tr ns0 with
        | none => .ok (benchmark0, ns0)
        | some be =>
          if attrGetD be "href" "" == "" then .ok (benchmark0, ns0)
          else
            match dictGet cache (pyBasename (attrGetD be "href" "")) with
            | none => .ok (benchmark0, ns0)
            | some bytes =>
              match fromstring bytes with
              | none => .error ParseError.xmlError
              | some broot =>
                let p := resolveExternalDoc broot ns0
                .ok (some p.1, p.2)
    match afterRef with
    | .error e => .error e
    | .ok (bm1, ns1) =>
      match resolveStage2 fromstring benchmark_bytes bm1 ns1 with
      | .error e => .error e
      | .ok (bm2, ns2) => .ok (bm2.getD root, ns2)
  else .ok (benchmark0.getD root, ns0)

/-- TestResult location (lines 237-255), the one lookup with the full
fallback chain: root-tag substring check, qualified descendant search, the
two hard-coded URIs, qualified direct-child search, and finally the first
element of `root.iter()` whose tag contains the name as a substring. -/
def locateTestResult (root : Element) (ns : String) : Option Element :=
  if pyContains root.tag "TestResult" then some root
  else
    match findDesc root (qtag ns "TestResult") with
    | some tr => some tr
    | none =>
      match findDesc root (qtag xccdf11 "TestResult") with
      | some tr => some tr
      | none =>
        match findDesc root (qtag xccdf12 "TestResult") with
        | some tr => some tr
        | none =>
          match findChild root (qtag ns "TestResult") with
          | some tr => some tr
          | none => root.iterAll.find? (fun e => pyContains e.tag "TestResult")

/-- Target extraction (lines 261-266). -/
def targetInfoOf (tr : Element) (ns : String) : TargetInfo :=
  { hostname := findtextDescD tr (qtag ns "target") "Unknown_Host",
    ip_address := findtextDescD tr (qtag ns "target-address") "",
    start_time := attrGetD tr "start-time" "",
    end_time := attrGetD tr "end-time" "" }

/-- `parse_nessus_xccdf_results` on an already parsed scan root: benchmark
resolution, STIG identification, TestResult location, target extraction, and
one finding per located rule-result.  All lookups after resolution use the
single namespace binding that resolution returned. -/
def parse_nessus_xccdf_results (cache : List (String × String))
    (fromstring : String → Option Element) (root : Element)
    (benchmark_bytes : Option String) : Except ParseError ParseOutput :=
  match resolveBenchmark cache fromstring benchmark_bytes root with
  | .error e => .error e
  | .ok (benchmark, ns) =>
    let stig_id := attrGetD benchmark "id" "Unknown_STIG"
    let stig_title := findtextChildD benchmark (qtag ns "title") stig_id
    match locateTestResult root ns with
    | none => .error ParseError.noTestResult
    | some test_result =>
      .ok { target := targetInfoOf test_result ns,
            stig_id := stig_id, stig_title := stig_title,
            results := (findallDesc test_result (qtag ns "rule-result")).map
              (processRuleResult (buildRuleDefs benchmark ns) ns) }

/-- The rule-result elements the parse actually walks (line 270), as a
derived observation used to state per-rule-result claims. -/
def locatedRuleResults (cache : List (String × String))
    (fromstring : String → Option Element) (benchmark_bytes : Option String)
    (root : Element) : Except ParseError (List Element) :=
  match resolveBenchmark cache fromstring benchmark_bytes root with
  | .error e => .error e
  | .ok (_, ns) =>
    match locateTestResult root ns with
    | none => .error ParseError.noTestResult
    | some test_result => .ok (findallDesc test_result (qtag ns "rule-result"))

/-- One file of the main loop: parse the bytes (`ET.fromstring` first, via
the oracle) and run the converter without explicit benchmark bytes, as
`main` does (line 533). -/
def processOne (cache : List (String × String)) (fromstring : String → Option Element)
    (bytes : String) : Except ParseError ParseOutput :=
  match fromstring bytes with
  | none => .error ParseError.xmlError
  | some root => parse_nessus_xccdf_results cache fromstring root none

/-- The observable outcome of `main`'s per-file loop: the processed and error
counters and the outputs written, in order. -/
structure RunSummary where
  processed : Nat
  errors : Nat
  outputs : List (String × ParseOutput)
deriving DecidableEq, Repr

/-- `main`'s loop over the discovered files (lines 528-573): every raised
error — the TestResult `ValueError` as well as any other exception — is
caught, counted, and the loop moves to the next file. -/
def runAll (cache : List (String × String)) (fromstring : String → Option Element) :
    List (String × String) → RunSummary
  | [] => { processed := 0, errors := 0, outputs := [] }
  | f :: rest =>
    let r := runAll cache fromstring rest
    match processOne cache fromstring f.2 with
    | .ok out =>
      { processed := r.processed + 1, errors := r.errors, outputs := (f.1, out) :: r.outputs }
    | .error _ =>
      { processed := r.processed, errors := r.errors + 1, outputs := r.outputs }

/-- Namespace URI of the test scan documents. -/
def nsA : String := "urn:scanA"

/-- Namespace URI of the test external benchmark document. -/
def nsB : String := "urn:bmB"

/-- A third namespace URI, foreign to both test documents. -/
def nsC : String := "urn:other"

/-- Test scan document: `result` child of the rule-result. -/
def scanResultChild : Element := .mk (qtag nsA "result") [] (some "fail") []

/-- Test scan document: one rule-result in the scan's own namespace. -/
def scanRuleResult : Element :=
  .mk (qtag nsA "rule-result") [("idref", "R-1")] none [scanResultChild]

/-- Test scan document: the benchmark reference carrying the `href`. -/
def scanBenchmarkRef : Element :=
  .mk (qtag nsA "benchmark") [("href", "hosts/stig-xccdf.xml")] none []

/-- Test scan document: the TestResult element. -/
def scanTestResult : Element :=
  .mk (qtag nsA "TestResult") [] none [scanBenchmarkRef, scanRuleResult]

/-- Test scan document referencing an external benchmark by filename. -/
def scanRootExt : Element := .mk (qtag nsA "Benchmark") [] none [scanTestResult]

/-- External benchmark document (namespace `nsB`): rule title. -/
def bmRuleTitleB : Element := .mk (qtag nsB "title") [] (some "Rule One") []

/-- External benchmark document: the rule matching the scan's `idref`. -/
def bmRuleB : Element :=
  .mk (qtag nsB "Rule") [("id", "R-1"), ("severity", "high")] none [bmRuleTitleB]

/-- External benchmark document: group title. -/
def bmGroupTitleB : Element := .mk (qtag nsB "title") [] (some "Group One") []

/-- External benchmark document: the group. -/
def bmGroupB : Element :=
  .mk (qtag nsB "Group") [("id", "V-1000")] none [bmGroupTitleB, bmRuleB]

/-- External benchmark document root, in a different namespace than the scan. -/
def bmRootB : Element := .mk (qtag nsB "Benchmark") [("id", "STIG-1")] none [bmGroupB]

/-- Cache holding the external benchmark bytes for the test scan's reference. -/
def c1cache : List (String × String) := [("stig-xccdf.xml", "BMBYTES")]

/-- Byte-parsing oracle for the external-benchmark scenario. -/
def c1fs : String → Option Element := fun s => if s == "BMBYTES" then some bmRootB else none

/-- What the converter produces for `scanRootExt` with `c1cache`: the
benchmark resolves in namespace `nsB`, after which the scan's own
rule-result is no longer found. -/
def c1out : ParseOutput :=
  { target := { hostname := "Unknown_Host", ip_address := "", start_time := "", end_time := "" },
    stig_id := "STIG-1", stig_title := "STIG-1", results := [] }

/-- Cache whose bytes for the referenced filename are malformed. -/
def c10cache : List (String × String) := [("stig-xccdf.xml", "BADXML")]

/-- Oracle for the malformed-cache scenario: the scan bytes parse, the cached
benchmark bytes do not. -/
def c10fs : String → Option Element := fun s => if s == "SCANDOC" then some scanRootExt else none

/-- Embedded-benchmark test document: check-content of the rule. -/
def c4cc : Element := .mk (qtag nsA "check-content") [] (some "check body") []

/-- Embedded-benchmark test document: check element. -/
def c4check : Element := .mk (qtag nsA "check") [] none [c4cc]

/-- Embedded-benchmark test document: fixtext. -/
def c4fix : Element := .mk (qtag nsA "fixtext") [] (some "fix body") []

/-- Embedded-benchmark test document: a CCI ident. -/
def c4ident : Element :=
  .mk (qtag nsA "ident") [("system", "http://cyber.mil/cci")] (some "CCI-000001") []

/-- Embedded-benchmark test document: rule title. -/
def c4rtitle : Element := .mk (qtag nsA "title") [] (some "Rule title") []

/-- Embedded-benchmark test document: the rule. -/
def c4rule : Element :=
  .mk (qtag nsA "Rule") [("id", "R-1"), ("severity", "high")] none
    [c4rtitle, c4check, c4fix, c4ident]

/-- Embedded-benchmark test document: group title. -/
def c4gtitle : Element := .mk (qtag nsA "title") [] (some "Group title") []

/-- Embedded-benchmark test document: the group. -/
def c4group : Element := .mk (qtag nsA "Group") [("id", "V-1")] none [c4gtitle, c4rule]

/-- Embedded-benchmark test document: the embedded benchmark. -/
def c4bm : Element := .mk (qtag nsA "Benchmark") [("id", "S-1")] none [c4group]

/-- Embedded-benchmark test document: result child of the first rule-result. -/
def c4res1 : Element := .mk (qtag nsA "result") [] (some "fail") []

/-- Embedded-benchmark test document: rule-result with a matching rule. -/
def c4rr1 : Element := .mk (qtag nsA "rule-result") [("idref", "R-1")] none [c4res1]

/-- Embedded-benchmark test document: result child of the second rule-result. -/
def c4res2 : Element := .mk (qtag nsA "result") [] (some "pass") []

/-- Embedded-benchmark test document: rule-result with an unmatched `idref`. -/
def c4rr2 : Element := .mk (qtag nsA "rule-result") [("idref", "R-404")] none [c4res2]

/-- Embedded-benchmark test document: target element. -/
def c4target : Element := .mk (qtag nsA "target") [] (some "host1") []

/-- Embedded-benchmark test document: the TestResult with two rule-results. -/
def c4tr : Element :=
  .mk (qtag nsA "TestResult") [("start-time", "t0"), ("end-time", "t1")] none
    [c4target, c4rr1, c4rr2]

/-- Scan document with an embedded benchmark and two rule-results. -/
def c4scan : Element := .mk (qtag nsA "root") [] none [c4bm, c4tr]

/-- Oracle that parses no bytes (no external documents are needed). -/
def c4fs : String → Option Element := fun _ => none

/-- Expected finding for the matched rule-result of `c4scan`. -/
def c4f1 : Finding :=
  { rule_id := "R-1", vuln_id := "V-1", group_id := "V-1", group_title := "Group title",
    rule_title := "Rule title", severity := "high", description := "",
    check_content := "check body", fix_text := "fix body", rule_ver := "",
    cci_ref := "CCI-000001", status := "open", finding_details := "", comments := "",
    nessus_result := "fail" }

/-- Expected placeholder finding for the unmatched rule-result of `c4scan`. -/
def c4f2 : Finding :=
  { rule_id := "R-404", vuln_id := "R-404", group_id := "R-404", group_title := "",
    rule_title := "R-404", severity := "medium", description := "", check_content := "",
    fix_text := "", rule_ver := "", cci_ref := "", status := "not_a_finding",
    finding_details := "", comments := "", nessus_result := "pass" }

/-- Expected converter output for `c4scan`. -/
def c4out : ParseOutput :=
  { target := { hostname := "host1", ip_address := "", start_time := "t0", end_time := "t1" },
    stig_id := "S-1", stig_title := "S-1", results := [c4f1, c4f2] }

/-- Foreign-namespace test document: result child under `nsC`. -/
def c5res : Element := .mk (qtag nsC "result") [] (some "fail") []

/-- Foreign-namespace test document: a rule-result under `nsC`, not the
active namespace. -/
def c5rr : Element := .mk (qtag nsC "rule-result") [("idref", "R-9")] none [c5res]

/-- Foreign-namespace test document: the TestResult (namespace `nsA`). -/
def c5tr : Element := .mk (qtag nsA "TestResult") [] none [c5rr]

/-- Scan document whose only rule-result sits under a foreign namespace. -/
def c5root : Element := .mk (qtag nsA "Benchmark") [] none [c5tr]

/-- Expected converter output for `c5root`: no findings at all. -/
def c5out : ParseOutput :=
  { target := { hostname := "Unknown_Host", ip_address := "", start_time := "", end_time := "" },
    stig_id := "Unknown_STIG", stig_title := "Unknown_STIG", results := [] }

/-- A document with no namespace and no TestResult anywhere. -/
def c5plain : Element := .mk "data" [] none []

/-- A scan document in which no strategy can locate a TestResult. -/
def c6bad : Element := .mk (qtag nsA "Benchmark") [] none []

/-- A minimal scan document that parses successfully (its root is the
TestResult). -/
def c6ok : Element := .mk (qtag nsA "TestResult") [] none []

/-- Oracle for the skip-and-continue scenario. -/
def c6fs : String → Option Element :=
  fun s => if s == "BAD6" then some c6bad else if s == "OK6" then some c6ok else none

/-- Empty benchmark cache for the skip-and-continue scenario. -/
def c6cache : List (String × String) := []

/-- Expected converter output for `c6ok`. -/
def c6okOut : ParseOutput :=
  { target := { hostname := "Unknown_Host", ip_address := "", start_time := "", end_time := "" },
    stig_id := "Unknown_STIG", stig_title := "Unknown_STIG", results := [] }

/-- Nested-archive oracle: one readable nested archive, everything else
corrupt. -/
def rz7 : String → Option (List (String × String)) :=
  fun s =>
    if s == "NESTEDZIP" then some [("sub/deep-xccdf.xml", "C"), ("deeper.zip", "DZ")]
    else none

/-- Benchmark directory with duplicate basenames inside one archive. -/
def c2dir : BenchmarkDir :=
  { zips := [ZipSource.ok [("d1/a-xccdf.xml", "first"), ("d2/a-xccdf.xml", "second")]],
    flatXml := [], recXml := [] }

/-- Oracle for `c2dir`: no nested archives at all. -/
def rz0 : String → Option (List (String × String)) := fun _ => none

theorem isPrefixOf_self (l : List Char) : l.isPrefixOf l = true := by
  induction l with
  | nil => rfl
  | cons c cs ih => simp [List.isPrefixOf, ih]

theorem containsSub_append_self (sub pre : List Char) : containsSub sub (pre ++ sub) = true := by
  induction pre with
  | nil =>
    cases sub with
    | nil => rfl
    | cons c cs => simp [containsSub, isPrefixOf_self]
  | cons c cs ih => simp [containsSub, ih]

theorem pyContains_qtag (uri loc : String) : pyContains (qtag uri loc) loc = true := by
  show containsSub loc.data ('\x7b' :: uri.data ++ '\x7d' :: loc.data) = true
  have h : '\x7b' :: uri.data ++ '\x7d' :: loc.data =
      ('\x7b' :: uri.data ++ ['\x7d']) ++ loc.data := by simp
  rw [h]
  exact containsSub_append_self loc.data _

theorem iterAll_eq (e : Element) : e.iterAll = e :: e.descendants := by
  cases e; rfl

theorem self_mem_iterAll (e : Element) : e ∈ e.iterAll := by
  rw [iterAll_eq]; exact List.mem_cons_self _ _

theorem mem_iterList_of_mem {es : List Element} {e : Element} (h : e ∈ es) : e ∈ iterList es := by
  induction es with
  | nil => cases h
  | cons c cs ih =>
    rcases List.mem_cons.mp h with h1 | h2
    · subst h1; exact List.mem_append_left _ (self_mem_iterAll _)
    · exact List.mem_append_right _ (ih h2)

theorem mem_descendants_of_mem_children {c e : Element} (h : e ∈ c.children) :
    e ∈ c.descendants := mem_iterList_of_mem h

theorem mem_iterAll_of_mem_descendants {c e : Element} (h : e ∈ c.descendants) :
    e ∈ c.iterAll := by
  rw [iterAll_eq]; exact List.mem_cons_of_mem _ h

/-- Exhaustiveness of the TestResult fallback chain: it comes up empty
exactly when no element of the document (root included) carries a tag that
even contains the target name as a substring — the final `iter()` strategy
subsumes every qualified strategy before it. -/
theorem locateTestResult_none_iff (root : Element) (ns : String) :
    locateTestResult root ns = none ↔
      ∀ e ∈ root.iterAll, pyContains e.tag "TestResult" = false := by
  constructor
  · intro h
    unfold locateTestResult at h
    split at h
    · cases h
    · split at h
      · cases h
      · split at h
        · cases h
        · split at h
          · cases h
          · split at h
            · cases h
            · intro e he
              have := List.find?_eq_none.mp h e he
              simpa using this
  · intro H
    have hroot : pyContains root.tag "TestResult" = false := H root (self_mem_iterAll root)
    have hdesc : ∀ uri, findDesc root (qtag uri "TestResult") = none := by
      intro uri
      apply List.find?_eq_none.mpr
      intro x hx
      intro hbeq
      have htag : x.tag = qtag uri "TestResult" := by simpa using hbeq
      have := H x (mem_iterAll_of_mem_descendants hx)
      rw [htag, pyContains_qtag] at this
      cases this
    have hchild : findChild root (qtag ns "TestResult") = none := by
      apply List.find?_eq_none.mpr
      intro x hx
      intro hbeq
      have htag : x.tag = qtag ns "TestResult" := by simpa using hbeq
      have := H x (mem_iterAll_of_mem_descendants (mem_descendants_of_mem_children hx))
      rw [htag, pyContains_qtag] at this
      cases this
    have hiter : root.iterAll.find? (fun e => pyContains e.tag "TestResult") = none := by
      apply List.find?_eq_none.mpr
      intro x hx hcon
      rw [H x hx] at hcon
      cases hcon
    unfold locateTestResult
    rw [hroot, hdesc ns, hdesc xccdf11, hdesc xccdf12, hchild, hiter]
    rfl



theorem beq_symm_false {k k1 : String} (h : (k1 == k) = false) : (k == k1) = false := by
  cases h2 : (k == k1) with
  | false => rfl
  | true =>
    have : k = k1 := by simpa using h2
    rw [this, beq_self_eq_true] at h
    cases h

theorem lookup_map_set_of_some {α : Type} (k : String) (v : α) :
    ∀ (d : List (String × α)) (w : α), List.lookup k d = some w →
      List.lookup k (d.map (fun p => if p.1 == k then (k, v) else p)) = some v := by
  intro d
  induction d with
  | nil => intro w hw; cases hw
  | cons p rest ih =>
    intro w hw
    obtain ⟨k1, v1⟩ := p
    cases hpk : (k1 == k) with
    | true =>
      simp only [List.map, hpk, if_pos]
      simp [List.lookup]
    | false =>
      have hkp : (k == k1) = false := beq_symm_false hpk
      simp only [List.map, hpk, if_neg, Bool.false_eq_true, not_false_iff]
      simp only [List.lookup, hkp] at hw ⊢
      exact ih w hw

theorem lookup_map_set_ne {α : Type} (k k2 : String) (v : α) (h : (k == k2) = false) :
    ∀ d : List (String × α),
      List.lookup k (d.map (fun p => if p.1 == k2 then (k2, v) else p)) = List.lookup k d := by
  intro d
  induction d with
  | nil => rfl
  | cons p rest ih =>
    obtain ⟨k1, v1⟩ := p
    cases hpk : (k1 == k2) with
    | true =>
      have hk1 : k1 = k2 := by simpa using hpk
      have hkp : (k == k1) = false := by rw [hk1]; exact h
      simp only [List.map, hpk, if_pos]
      simp only [List.lookup, h, hkp]
      exact ih
    | false =>
      simp only [List.map, hpk, if_neg, Bool.false_eq_true, not_false_iff]
      cases hkp : (k == k1) with
      | true => simp [List.lookup, hkp]
      | false => simp only [List.lookup, hkp]; exact ih

theorem lookup_append_single {α : Type} (k : String) (v : α) :
    ∀ d : List (String × α), List.lookup k d = none → List.lookup k (d ++ [(k, v)]) = some v := by
  intro d
  induction d with
  | nil => intro; simp [List.lookup]
  | cons p rest ih =>
    intro hw
    obtain ⟨k1, v1⟩ := p
    cases hkp : (k == k1) with
    | true => simp only [List.lookup, hkp] at hw; cases hw
    | false =>
      simp only [List.lookup, hkp] at hw
      simp only [List.cons_append, List.lookup, hkp]
      exact ih hw

theorem lookup_append_single_ne {α : Type} (k k2 : String) (v : α) (h : (k == k2) = false) :
    ∀ d : List (String × α), List.lookup k (d ++ [(k2, v)]) = List.lookup k d := by
  intro d
  induction d with
  | nil => simp [List.lookup, h]
  | cons p rest ih =>
    obtain ⟨k1, v1⟩ := p
    cases hkp : (k == k1) with
    | true => simp [List.lookup, hkp]
    | false =>
      simp only [List.cons_append, List.lookup, hkp]
      exact ih

theorem dictGet_dictSet_self {α : Type} (d : List (String × α)) (k : String) (v : α) :
    dictGet (dictSet d k v) k = some v := by
  unfold dictSet
  by_cases hc : dictContains d k = true
  · rw [if_pos hc]
    unfold dictContains at hc
    obtain ⟨w, hw⟩ := Option.isSome_iff_exists.mp hc
    exact lookup_map_set_of_some k v d w hw
  · rw [if_neg hc]
    unfold dictGet
    apply lookup_append_single
    unfold dictContains dictGet at hc
    cases hl : List.lookup k d with
    | none => rfl
    | some w => rw [hl] at hc; exact absurd rfl hc

theorem dictGet_dictSet_ne {α : Type} (d : List (String × α)) (k k2 : String) (v : α)
    (h : k ≠ k2) : dictGet (dictSet d k2 v) k = dictGet d k := by
  have hkk2 : (k == k2) = false := beq_eq_false_iff_ne.mpr h
  unfold dictSet dictGet
  by_cases hc : dictContains d k2 = true
  · rw [if_pos hc]
    exact lookup_map_set_ne k k2 v hkk2 d
  · rw [if_neg hc]
    exact lookup_append_single_ne k k2 v hkk2 d

theorem dictContains_dictSet_self {α : Type} (d : List (String × α)) (k : String) (v : α) :
    dictContains (dictSet d k v) k = true := by
  unfold dictContains
  rw [dictGet_dictSet_self]
  rfl

theorem dictContains_dictSet_mono {α : Type} (d : List (String × α)) (k k2 : String) (v : α)
    (h : dictContains d k = true) : dictContains (dictSet d k2 v) k = true := by
  by_cases hk : k = k2
  · subst hk; exact dictContains_dictSet_self d k v
  · unfold dictContains
    rw [dictGet_dictSet_ne d k k2 v hk]
    exact h

theorem foldl_preserves {α β : Type} (P : α → Prop) (g : α → β → α)
    (hg : ∀ c p, P c → P (g c p)) : ∀ (l : List β) (c : α), P c → P (l.foldl g c) := by
  intro l
  induction l with
  | nil => intro c hc; exact hc
  | cons p rest ih => intro c hc; exact ih (g c p) (hg c p hc)

theorem runAll_error_skip (cache : List (String × String)) (fs : String → Option Element)
    (b : String) (err : ParseError) (h : processOne cache fs b = .error err) :
    ∀ (pre post : List (String × String)) (fn : String),
      runAll cache fs (pre ++ (fn, b) :: post) =
        { processed := (runAll cache fs (pre ++ post)).processed,
          errors := (runAll cache fs (pre ++ post)).errors + 1,
          outputs := (runAll cache fs (pre ++ post)).outputs } := by
  intro pre
  induction pre with
  | nil => intro post fn; simp [runAll, h]
  | cons g rest ih =>
    intro post fn
    obtain ⟨gn, gb⟩ := g
    cases hg : processOne cache fs gb with
    | ok out => simp [runAll, hg, ih post fn]
    | error e => simp [runAll, hg, ih post fn]

theorem endsWithZip_not_benchmark (g : String) (h : pyEndsWith g ".zip" = true) :
    isBenchmarkName g = false := by
  unfold pyEndsWith at h
  unfold isBenchmarkName pyEndsWith
  have hz : (".zip" : String).data.reverse = ['p', 'i', 'z', '.'] := by decide
  have hx : ("xccdf.xml" : String).data.reverse =
      ['l', 'm', 'x', '.', 'f', 'd', 'c', 'c', 'x'] := by decide
  have hm : (".xml" : String).data.reverse = ['l', 'm', 'x', '.'] := by decide
  rw [hz] at h
  rw [hx, hm]
  cases hr : g.data.reverse with
  | nil => rw [hr] at h; cases h
  | cons c r =>
    rw [hr] at h
    have hc : c = 'p' := by
      cases hcp : ('p' == c) with
      | true => exact (show 'p' = c by simpa using hcp).symm
      | false => rw [List.isPrefixOf, hcp] at h; simp at h
    subst hc
    have h1 : List.isPrefixOf ['l', 'm', 'x', '.', 'f', 'd', 'c', 'c', 'x'] ('p' :: r) = false := by
      rw [List.isPrefixOf]
      simp
    have h2 : List.isPrefixOf ['l', 'm', 'x', '.'] ('p' :: r) = false := by
      rw [List.isPrefixOf]
      simp
    rw [h1, h2]
    rfl

theorem dictContains_cacheNestedFold (k : String) (c : List (String × String))
    (nested : List (String × String)) (h : dictContains c k = true) :
    dictContains (cacheNestedFold c nested) k = true := by
  unfold cacheNestedFold
  refine foldl_preserves (fun c => dictContains c k = true) _ ?_ nested c h
  intro c2 p hp
  by_cases hb : isBenchmarkName p.1 = true
  · rw [hb]
    simp only [if_pos]
    exact dictContains_dictSet_mono c2 k (pyBasename p.1) p.2 hp
  · rw [Bool.not_eq_true] at hb
    rw [hb]
    simpa using hp

theorem dictContains_cacheZipEntry (readZip : String → Option (List (String × String)))
    (k : String) (c : List (String × String)) (p : String × String)
    (h : dictContains c k = true) : dictContains (cacheZipEntry readZip c p) k = true := by
  unfold cacheZipEntry
  by_cases hb : isBenchmarkName p.1 = true
  · rw [hb]
    simp only [if_pos]
    exact dictContains_dictSet_mono c k (pyBasename p.1) p.2 h
  · rw [Bool.not_eq_true] at hb
    rw [hb]
    simp only [Bool.false_eq_true, if_false]
    by_cases hz : pyEndsWith p.1 ".zip" = true
    · rw [hz]
      simp only [if_pos]
      cases hr : readZip p.2 with
      | none => exact h
      | some nested => exact dictContains_cacheNestedFold k c nested h
    · rw [Bool.not_eq_true] at hz
      rw [hz]
      simpa using h

theorem dictContains_mem_nested (c : List (String × String))
    (npre npost : List (String × String)) (f fc : String)
    (hf : isBenchmarkName f = true) :
    dictContains (cacheNestedFold c (npre ++ (f, fc) :: npost)) (pyBasename f) = true := by
  unfold cacheNestedFold
  rw [List.foldl_append]
  refine foldl_preserves (fun c => dictContains c (pyBasename f) = true) _ ?_ npost _ ?_
  · intro c2 p hp
    by_cases hb : isBenchmarkName p.1 = true
    · rw [hb]
      simp only [if_pos]
      exact dictContains_dictSet_mono c2 (pyBasename f) (pyBasename p.1) p.2 hp
    · rw [Bool.not_eq_true] at hb
      rw [hb]
      simpa using hp
  · simp only [List.foldl_cons, hf, if_pos]
    exact dictContains_dictSet_self _ (pyBasename f) fc

theorem dictGet_recStep_preserved (k : String) (v : String) (c : List (String × String))
    (p : String × String) (h : dictGet c k = some v) :
    dictGet (if dictContains c (pyBasename p.1) then c
             else dictSet c (pyBasename p.1) p.2) k = some v := by
  by_cases hc : dictContains c (pyBasename p.1) = true
  · rw [if_pos hc]; exact h
  · rw [if_neg hc]
    have hne : k ≠ pyBasename p.1 := by
      intro heq
      apply hc
      rw [← heq]
      unfold dictContains
      rw [h]
      rfl
    rw [dictGet_dictSet_ne c k (pyBasename p.1) p.2 hne]
    exact h

/-- C3: for every rule-result, the normalized status comes from the raw
lower-cased scanner status (direct-child `result` text, defaulting to
`unknown` when the child is absent) through the fixed table
pass→not_a_finding, fail→open, error→open, fixed→not_a_finding,
notapplicable→not_applicable, unknown/notchecked/notselected/informational→
not_reviewed, and any status outside the table maps to not_reviewed. -/
theorem c3_status_mapping :
    (∀ (defs : List (String × RuleDef)) (ns : String) (rr : Element),
      (processRuleResult defs ns rr).status = statusMapGet (rawStatus rr ns) ∧
      (processRuleResult defs ns rr).nessus_result = rawStatus rr ns) ∧
    (∀ (ns : String) (rr : Element), findChild rr (qtag ns "result") = none →
      rawStatus rr ns = "unknown") ∧
    statusMapGet "pass" = "not_a_finding" ∧ statusMapGet "fail" = "open" ∧
    statusMapGet "error" = "open" ∧ statusMapGet "fixed" = "not_a_finding" ∧
    statusMapGet "notapplicable" = "not_applicable" ∧
    statusMapGet "unknown" = "not_reviewed" ∧ statusMapGet "notchecked" = "not_reviewed" ∧
    statusMapGet "notselected" = "not_reviewed" ∧
    statusMapGet "informational" = "not_reviewed" ∧
    (∀ s : String, s ∉ status_map.map Prod.fst → statusMapGet s = "not_reviewed") := by
  refine ⟨?_, ?_, by decide, by decide, by decide, by decide, by decide, by decide,
    by decide, by decide, by decide, ?_⟩
  · intro defs ns rr
    exact ⟨rfl, rfl⟩
  · intro ns rr h
    simp only [rawStatus, findtextChildD, h]
    decide
  · intro s hs
    simp only [status_map, List.map_cons, List.map_nil, List.mem_cons,
      List.not_mem_nil, or_false] at hs
    push_neg at hs
    obtain ⟨h1, h2, h3, h4, h5, h6, h7, h8, h9⟩ := hs
    have b1 : (s == "pass") = false := beq_eq_false_iff_ne.mpr h1
    have b2 : (s == "fail") = false := beq_eq_false_iff_ne.mpr h2
    have b3 : (s == "error") = false := beq_eq_false_iff_ne.mpr h3
    have b4 : (s == "unknown") = false := beq_eq_false_iff_ne.mpr h4
    have b5 : (s == "notapplicable") = false := beq_eq_false_iff_ne.mpr h5
    have b6 : (s == "notchecked") = false := beq_eq_false_iff_ne.mpr h6
    have b7 : (s == "notselected") = false := beq_eq_false_iff_ne.mpr h7
    have b8 : (s == "informational") = false := beq_eq_false_iff_ne.mpr h8
    have b9 : (s == "fixed") = false := beq_eq_false_iff_ne.mpr h9
    simp [statusMapGet, dictGet, status_map, List.lookup, b1, b2, b3, b4, b5, b6, b7, b8, b9]

/-- C3 witness: the mapping evaluated at a concrete rule-result with no
`result` child and a concrete status string outside the table. -/
theorem c3_witness :
    (processRuleResult [] nsA c4rr1).status = statusMapGet (rawStatus c4rr1 nsA) ∧
    (findChild c5plain (qtag nsA "result") = none → rawStatus c5plain nsA = "unknown") ∧
    rawStatus c5plain nsA = "unknown" ∧
    ("bogus" ∉ status_map.map Prod.fst → statusMapGet "bogus" = "not_reviewed") ∧
    statusMapGet "bogus" = "not_reviewed" :=
  ⟨(c3_status_mapping.1 [] nsA c4rr1).1,
   c3_status_mapping.2.1 nsA c5plain,
   c3_status_mapping.2.1 nsA c5plain rfl,
   c3_status_mapping.2.2.2.2.2.2.2.2.2.2.2 "bogus",
   c3_status_mapping.2.2.2.2.2.2.2.2.2.2.2 "bogus" (by decide)⟩

/-- C9 counterexample: an upper-cased benchmark filename that the claim's
case-insensitive reading accepts is rejected by the code, whose two
`endswith` tests are case-sensitive. -/
theorem c9_counterexample :
    isBenchmarkName "U_MS_XCCDF.XML" = false ∧ isBenchmarkNameCI "U_MS_XCCDF.XML" = true :=
  ⟨by decide, by decide⟩

/-- C9 (amended): a filename is recognized iff it ends (case-sensitively)
with the benchmark suffix, or ends (case-sensitively) with the generic
extension while its lower-cased form contains the keyword; only the keyword
test is case-insensitive, so the claim's fully case-insensitive reading
agrees with the code exactly on names that are already lower-case. -/
theorem c9_amended_case_sensitivity :
    ∀ name : String, pyLower name = name → isBenchmarkName name = isBenchmarkNameCI name := by
  intro name h
  unfold isBenchmarkName isBenchmarkNameCI
  rw [h]

/-- C9 witness: the amended equivalence at a concrete lower-case filename. -/
theorem c9_witness :
    pyLower "u_gpos_xccdf.xml" = "u_gpos_xccdf.xml" ∧
    isBenchmarkName "u_gpos_xccdf.xml" = isBenchmarkNameCI "u_gpos_xccdf.xml" :=
  ⟨by decide, c9_amended_case_sensitivity "u_gpos_xccdf.xml" (by decide)⟩

/-- C2 counterexample: an archive holding two entries with the same base
filename.  The code caches the bytes of the later entry (assignment
overwrites), while the claim's first-found-wins reading keeps the earlier
bytes, so the claim is false on this input. -/
theorem c2_counterexample :
    dictGet (load_benchmark_files rz0 c2dir) "a-xccdf.xml" = some "second" ∧
    dictGet (loadBenchmarkFilesFirstWins rz0 c2dir) "a-xccdf.xml" = some "first" ∧
    load_benchmark_files rz0 c2dir ≠ loadBenchmarkFilesFirstWins rz0 c2dir :=
  ⟨by decide, by decide, by decide⟩

/-- C2 (amended): archive entries, nested-archive entries and loose flat
files are cached by unconditional assignment, so among those sources the
last-found bytes win; only the final recursive-subdirectory pass skips
already-cached filenames, so every entry present when that pass begins keeps
its bytes to the end of the population. -/
theorem c2_amended_cache_policy :
    (∀ (rz : String → Option (List (String × String))) (zips : List ZipSource)
        (flat recs : List (String × String)) (k v : String),
      dictGet (cacheAfterFlat rz zips flat) k = some v →
      dictGet (load_benchmark_files rz ⟨zips, flat, recs⟩) k = some v) ∧
    (∀ (rz : String → Option (List (String × String))) (zips : List ZipSource)
        (flat : List (String × String)) (p ct : String),
      dictGet (cacheAfterFlat rz zips (flat ++ [(p, ct)])) (pyBasename p) = some ct) := by
  constructor
  · intro rz zips flat recs k v h
    unfold load_benchmark_files
    exact foldl_preserves (fun c => dictGet c k = some v) _
      (fun c p hp => dictGet_recStep_preserved k v c p hp) recs _ h
  · intro rz zips flat p ct
    unfold cacheAfterFlat
    rw [List.foldl_append]
    simp only [List.foldl_cons, List.foldl_nil]
    exact dictGet_dictSet_self _ (pyBasename p) ct

/-- C2 witness: the amended policy at concrete inputs — a flat-cached file
survives the recursive pass, and the last flat file of a duplicate pair
wins. -/
theorem c2_witness :
    dictGet (cacheAfterFlat rz0 [] [("b-xccdf.xml", "X")]) "b-xccdf.xml" = some "X" ∧
    dictGet (load_benchmark_files rz0
      { zips := [], flatXml := [("b-xccdf.xml", "X")], recXml := [("s/b-xccdf.xml", "Y")] })
      "b-xccdf.xml" = some "X" ∧
    dictGet (cacheAfterFlat rz0 [] ([("c-xccdf.xml", "W")] ++ [("d/c-xccdf.xml", "Z")]))
      (pyBasename "d/c-xccdf.xml") = some "Z" :=
  ⟨by decide,
   c2_amended_cache_policy.1 rz0 [] [("b-xccdf.xml", "X")] [("s/b-xccdf.xml", "Y")]
     "b-xccdf.xml" "X" (by decide),
   c2_amended_cache_policy.2 rz0 [] [("c-xccdf.xml", "W")] "d/c-xccdf.xml" "Z"⟩

theorem dictContains_recStep (k : String) (c : List (String × String)) (p : String × String)
    (h : dictContains c k = true) :
    dictContains (if dictContains c (pyBasename p.1) then c
                  else dictSet c (pyBasename p.1) p.2) k = true := by
  by_cases hc : dictContains c (pyBasename p.1) = true
  · rw [if_pos hc]; exact h
  · rw [if_neg hc]; exact dictContains_dictSet_mono c k (pyBasename p.1) p.2 h

theorem dictContains_flatStep (k : String) (c : List (String × String)) (p : String × String)
    (h : dictContains c k = true) :
    dictContains (dictSet c (pyBasename p.1) p.2) k = true :=
  dictContains_dictSet_mono c k (pyBasename p.1) p.2 h

/-- C7: cache population supports exactly one level of archive nesting: a
recognized benchmark entry of a readable archive nested inside a scanned
archive ends up cached under its base filename; a corrupt nested archive is
a no-op, so the outer archive's remaining entries are processed exactly as
if it were absent; and inside a nested archive an entry that is itself an
archive (two levels deep) is ignored. -/
theorem c7_nested_archive_handling :
    (∀ (rz : String → Option (List (String × String)))
        (pre post npre npost flat recs : List (String × String)) (nz nc f fc : String),
      pyEndsWith nz ".zip" = true →
      rz nc = some (npre ++ (f, fc) :: npost) →
      isBenchmarkName f = true →
      dictContains
        (load_benchmark_files rz
          { zips := [ZipSource.ok (pre ++ (nz, nc) :: post)], flatXml := flat, recXml := recs })
        (pyBasename f) = true) ∧
    (∀ (rz : String → Option (List (String × String)))
        (pre post flat recs : List (String × String)) (nz nc : String),
      pyEndsWith nz ".zip" = true →
      rz nc = none →
      load_benchmark_files rz
          { zips := [ZipSource.ok (pre ++ (nz, nc) :: post)], flatXml := flat, recXml := recs } =
        load_benchmark_files rz
          { zips := [ZipSource.ok (pre ++ post)], flatXml := flat, recXml := recs }) ∧
    (∀ (c npre npost : List (String × String)) (g gc : String),
      pyEndsWith g ".zip" = true →
      cacheNestedFold c (npre ++ (g, gc) :: npost) = cacheNestedFold c (npre ++ npost)) := by
  refine ⟨?_, ?_, ?_⟩
  · intro rz pre post npre npost flat recs nz nc f fc hz hr hf
    have hnb : isBenchmarkName nz = false := endsWithZip_not_benchmark nz hz
    unfold load_benchmark_files
    refine foldl_preserves (fun c => dictContains c (pyBasename f) = true) _
      (fun c p hp => dictContains_recStep (pyBasename f) c p hp) recs _ ?_
    unfold cacheAfterFlat
    refine foldl_preserves (fun c => dictContains c (pyBasename f) = true) _
      (fun c p hp => dictContains_flatStep (pyBasename f) c p hp) flat _ ?_
    unfold cacheFromZips
    simp only [List.foldl_cons, List.foldl_nil]
    rw [List.foldl_append, List.foldl_cons]
    refine foldl_preserves (fun c => dictContains c (pyBasename f) = true) _
      (fun c p hp => dictContains_cacheZipEntry rz (pyBasename f) c p hp) post _ ?_
    unfold cacheZipEntry
    simp only [hnb, Bool.false_eq_true, if_false, hz, if_pos, hr]
    exact dictContains_mem_nested _ npre npost f fc hf
  · intro rz pre post flat recs nz nc hz hr
    have hnb : isBenchmarkName nz = false := endsWithZip_not_benchmark nz hz
    have hmid : ∀ c : List (String × String), cacheZipEntry rz c (nz, nc) = c := by
      intro c
      unfold cacheZipEntry
      simp only [hnb, Bool.false_eq_true, if_false, hz, if_pos, hr]
    unfold load_benchmark_files cacheAfterFlat cacheFromZips
    simp only [List.foldl_cons, List.foldl_nil]
    rw [List.foldl_append, List.foldl_cons, hmid, ← List.foldl_append]
  · intro c npre npost g gc hz
    have hnb : isBenchmarkName g = false := endsWithZip_not_benchmark g hz
    unfold cacheNestedFold
    rw [List.foldl_append, List.foldl_cons]
    simp only [hnb, Bool.false_eq_true, if_false]
    rw [← List.foldl_append]

/-- C7 witness: the three parts at a concrete archive holding a benchmark
file, a corrupt nested archive, and a readable nested archive that itself
contains a benchmark file and a two-levels-deep archive. -/
theorem c7_witness :
    pyEndsWith "inner.zip" ".zip" = true ∧
    rz7 "NESTEDZIP" = some ([] ++ ("sub/deep-xccdf.xml", "C") :: [("deeper.zip", "DZ")]) ∧
    isBenchmarkName "sub/deep-xccdf.xml" = true ∧
    dictContains
      (load_benchmark_files rz7
        { zips := [ZipSource.ok ([("good1-xccdf.xml", "A")] ++ ("inner.zip", "NESTEDZIP") ::
            [("good2-xccdf.xml", "B")])],
          flatXml := [], recXml := [] })
      (pyBasename "sub/deep-xccdf.xml") = true ∧
    rz7 "JUNK" = none ∧
    load_benchmark_files rz7
        { zips := [ZipSource.ok ([("good1-xccdf.xml", "A")] ++ ("corrupt.zip", "JUNK") ::
            [("good2-xccdf.xml", "B")])],
          flatXml := [], recXml := [] } =
      load_benchmark_files rz7
        { zips := [ZipSource.ok ([("good1-xccdf.xml", "A")] ++ [("good2-xccdf.xml", "B")])],
          flatXml := [], recXml := [] } ∧
    cacheNestedFold [("seed-xccdf.xml", "S")] ([] ++ ("deeper.zip", "DZ") :: []) =
      cacheNestedFold [("seed-xccdf.xml", "S")] ([] ++ []) :=
  ⟨by decide, rfl, by decide,
   c7_nested_archive_handling.1 rz7 [("good1-xccdf.xml", "A")] [("good2-xccdf.xml", "B")]
     [] [("deeper.zip", "DZ")] [] [] "inner.zip" "NESTEDZIP" "sub/deep-xccdf.xml" "C"
     (by decide) rfl (by decide),
   rfl,
   c7_nested_archive_handling.2.1 rz7 [("good1-xccdf.xml", "A")] [("good2-xccdf.xml", "B")]
     [] [] "corrupt.zip" "JUNK" (by decide) rfl,
   c7_nested_archive_handling.2.2 [("seed-xccdf.xml", "S")] [] [] "deeper.zip" "DZ" (by decide)⟩

/-- C8: for every scan document with an embedded benchmark element holding at
least one group, benchmark resolution returns that element with the scan
document's own namespace context, and the result is the same whatever the
cache holds — the cache is never consulted. -/
theorem c8_embedded_benchmark_no_cache :
    ∀ (cache cache2 : List (String × String)) (fs : String → Option Element)
      (bb : Option String) (root bm : Element),
      findDesc root (qtag (nsOf root) "Benchmark") = some bm →
      (findallDesc bm (qtag (nsOf root) "Group")).isEmpty = false →
      resolveBenchmark cache fs bb root = .ok (bm, nsOf root) ∧
      resolveBenchmark cache fs bb root = resolveBenchmark cache2 fs bb root := by
  intro cache cache2 fs bb root bm h1 h2
  have hresolve : ∀ c : List (String × String),
      resolveBenchmark c fs bb root = .ok (bm, nsOf root) := by
    intro c
    unfold resolveBenchmark
    simp only [h1, bmGroupsEmpty, h2, Bool.false_eq_true, if_false]
    rfl
  exact ⟨hresolve cache, (hresolve cache).trans (hresolve cache2).symm⟩

/-- C8 witness: the embedded-benchmark document resolved under two different
caches, one of them non-empty. -/
theorem c8_witness :
    findDesc c4scan (qtag (nsOf c4scan) "Benchmark") = some c4bm ∧
    (findallDesc c4bm (qtag (nsOf c4scan) "Group")).isEmpty = false ∧
    resolveBenchmark [("other-xccdf.xml", "IGNORED")] c4fs none c4scan =
      .ok (c4bm, nsOf c4scan) ∧
    resolveBenchmark [("other-xccdf.xml", "IGNORED")] c4fs none c4scan =
      resolveBenchmark [] c4fs none c4scan :=
  ⟨rfl, by decide,
   (c8_embedded_benchmark_no_cache [("other-xccdf.xml", "IGNORED")] [] c4fs none c4scan c4bm
     rfl (by decide)).1,
   (c8_embedded_benchmark_no_cache [("other-xccdf.xml", "IGNORED")] [] c4fs none c4scan c4bm
     rfl (by decide)).2⟩

/-- C6: for every well-formed scan document in which no strategy can locate a
TestResult — equivalently, no element tag even contains the name — parsing
raises the no-TestResult error for that document, and the caller counts the
error and continues: the run over the other files is exactly the run without
the offending file, plus one error. -/
theorem c6_no_testresult_skip :
    ∀ (cache : List (String × String)) (fs : String → Option Element) (b : String)
      (root bm : Element) (ns fn : String) (pre post : List (String × String)),
      fs b = some root →
      (∀ e ∈ Element.iterAll root, pyContains e.tag "TestResult" = false) →
      resolveBenchmark cache fs none root = .ok (bm, ns) →
      parse_nessus_xccdf_results cache fs root none = .error ParseError.noTestResult ∧
      runAll cache fs (pre ++ (fn, b) :: post) =
        { processed := (runAll cache fs (pre ++ post)).processed,
          errors := (runAll cache fs (pre ++ post)).errors + 1,
          outputs := (runAll cache fs (pre ++ post)).outputs } := by
  intro cache fs b root bm ns fn pre post hfs H hres
  have hloc : locateTestResult root ns = none := (locateTestResult_none_iff root ns).mpr H
  have hparse : parse_nessus_xccdf_results cache fs root none = .error ParseError.noTestResult := by
    unfold parse_nessus_xccdf_results
    simp only [hres, hloc]
  refine ⟨hparse, ?_⟩
  have hone : processOne cache fs b = .error ParseError.noTestResult := by
    unfold processOne
    simp only [hfs, hparse]
  exact runAll_error_skip cache fs b ParseError.noTestResult hone pre post fn

/-- C6 witness: a benchmark-only document with no TestResult is skipped while
the following document is still converted. -/
theorem c6_witness :
    c6fs "BAD6" = some c6bad ∧
    (∀ e ∈ Element.iterAll c6bad, pyContains e.tag "TestResult" = false) ∧
    resolveBenchmark c6cache c6fs none c6bad = .ok (c6bad, nsA) ∧
    parse_nessus_xccdf_results c6cache c6fs c6bad none = .error ParseError.noTestResult ∧
    runAll c6cache c6fs ([] ++ ("a", "BAD6") :: [("b", "OK6")]) =
      { processed := (runAll c6cache c6fs ([] ++ [("b", "OK6")])).processed,
        errors := (runAll c6cache c6fs ([] ++ [("b", "OK6")])).errors + 1,
        outputs := (runAll c6cache c6fs ([] ++ [("b", "OK6")])).outputs } ∧
    runAll c6cache c6fs [("a", "BAD6"), ("b", "OK6")] =
      { processed := 1, errors := 1, outputs := [("b", c6okOut)] } :=
  ⟨rfl, by decide, rfl,
   (c6_no_testresult_skip c6cache c6fs "BAD6" c6bad c6bad nsA "a" [] [("b", "OK6")]
     rfl (by decide) rfl).1,
   (c6_no_testresult_skip c6cache c6fs "BAD6" c6bad c6bad nsA "a" [] [("b", "OK6")]
     rfl (by decide) rfl).2,
   by decide⟩

/-- C10: when the benchmark reference's base filename is cached but the
cached bytes are malformed, parsing of that scan document raises the
XML-parse error (no output, one more caller-side error); a cache miss for
the same reference instead resolves to the scan root itself, degrading to
placeholder rule definitions rather than failing. -/
theorem c10_malformed_cached_benchmark :
    ∀ (cache : List (String × String)) (fs : String → Option Element) (bb : Option String)
      (root tr be : Element) (bytes : String),
      bmGroupsEmpty (findDesc root (qtag (nsOf root) "Benchmark")) (nsOf root) = true →
      refTestResult root (nsOf root) = some tr →
      refBenchmarkElem tr (nsOf root) = some be →
      (attrGetD be "href" "" == "") = false →
      dictGet cache (pyBasename (attrGetD be "href" "")) = some bytes →
      fs bytes = none →
      resolveBenchmark cache fs bb root = .error ParseError.xmlError ∧
      parse_nessus_xccdf_results cache fs root bb = .error ParseError.xmlError ∧
      (∀ (db fn : String) (pre post : List (String × String)), fs db = some root →
        runAll cache fs (pre ++ (fn, db) :: post) =
          { processed := (runAll cache fs (pre ++ post)).processed,
            errors := (runAll cache fs (pre ++ post)).errors + 1,
            outputs := (runAll cache fs (pre ++ post)).outputs }) ∧
      (∀ cache2 : List (String × String),
        dictGet cache2 (pyBasename (attrGetD be "href" "")) = none →
        findDesc root (qtag (nsOf root) "Benchmark") = none →
        resolveBenchmark cache2 fs none root = .ok (root, nsOf root)) := by
  intro cache fs bb root tr be bytes h1 h2 h3 h4 h5 h6
  have hresAll : ∀ bb2 : Option String,
      resolveBenchmark cache fs bb2 root = .error ParseError.xmlError := by
    intro bb2
    unfold resolveBenchmark
    simp only [h1, if_true, h2, h3, h4, Bool.false_eq_true, if_false, h5, h6]
  have hparseAll : ∀ bb2 : Option String,
      parse_nessus_xccdf_results cache fs root bb2 = .error ParseError.xmlError := by
    intro bb2
    unfold parse_nessus_xccdf_results
    simp only [hresAll bb2]
  refine ⟨hresAll bb, hparseAll bb, ?_, ?_⟩
  · intro db fn pre post hdb
    have hone : processOne cache fs db = .error ParseError.xmlError := by
      unfold processOne
      simp only [hdb, hparseAll none]
    exact runAll_error_skip cache fs db ParseError.xmlError hone pre post fn
  · intro cache2 hc2 hb0
    unfold resolveBenchmark
    simp only [hb0, bmGroupsEmpty, if_true, h2, h3, h4, Bool.false_eq_true, if_false, hc2,
      resolveStage2, Option.getD_none]

/-- C10 witness: the concrete scan document whose benchmark reference hits a
cache entry of malformed bytes errors out, is counted, and a cache miss on
the same document resolves gracefully to the scan root. -/
theorem c10_witness :
    bmGroupsEmpty (findDesc scanRootExt (qtag (nsOf scanRootExt) "Benchmark"))
      (nsOf scanRootExt) = true ∧
    refTestResult scanRootExt (nsOf scanRootExt) = some scanTestResult ∧
    refBenchmarkElem scanTestResult (nsOf scanRootExt) = some scanBenchmarkRef ∧
    dictGet c10cache (pyBasename (attrGetD scanBenchmarkRef "href" "")) = some "BADXML" ∧
    c10fs "BADXML" = none ∧
    resolveBenchmark c10cache c10fs none scanRootExt = .error ParseError.xmlError ∧
    parse_nessus_xccdf_results c10cache c10fs scanRootExt none = .error ParseError.xmlError ∧
    runAll c10cache c10fs ([] ++ ("a", "SCANDOC") :: []) =
      { processed := (runAll c10cache c10fs ([] ++ [])).processed,
        errors := (runAll c10cache c10fs ([] ++ [])).errors + 1,
        outputs := (runAll c10cache c10fs ([] ++ [])).outputs } ∧
    resolveBenchmark [] c10fs none scanRootExt = .ok (scanRootExt, nsOf scanRootExt) :=
  ⟨by decide, rfl, rfl, rfl, rfl,
   (c10_malformed_cached_benchmark c10cache c10fs none scanRootExt scanTestResult
     scanBenchmarkRef "BADXML" (by decide) rfl rfl (by decide) rfl rfl).1,
   (c10_malformed_cached_benchmark c10cache c10fs none scanRootExt scanTestResult
     scanBenchmarkRef "BADXML" (by decide) rfl rfl (by decide) rfl rfl).2.1,
   (c10_malformed_cached_benchmark c10cache c10fs none scanRootExt scanTestResult
     scanBenchmarkRef "BADXML" (by decide) rfl rfl (by decide) rfl rfl).2.2.1
     "SCANDOC" "a" [] [] rfl,
   (c10_malformed_cached_benchmark c10cache c10fs none scanRootExt scanTestResult
     scanBenchmarkRef "BADXML" (by decide) rfl rfl (by decide) rfl rfl).2.2.2
     [] rfl rfl⟩

/-- C1 counterexample: a scan document in namespace `nsA` whose benchmark
resolves from the cache in namespace `nsB`.  The claim's reading — lookups
against the scan document still use the scan's own context — would locate
the document's single rule-result (qualified with `nsA`); the code locates
none, because the single context now carries `nsB`, and emits no findings. -/
theorem c1_counterexample :
    parse_nessus_xccdf_results c1cache c1fs scanRootExt none = .ok c1out ∧
    c1out.results = [] ∧
    resolveBenchmark c1cache c1fs none scanRootExt = .ok (bmRootB, nsB) ∧
    nsOf scanRootExt = nsA ∧ nsA ≠ nsB ∧
    locateTestResult scanRootExt nsB = some scanTestResult ∧
    (findallDesc scanTestResult (qtag (nsOf scanRootExt) "rule-result")).length = 1 ∧
    (findallDesc scanTestResult (qtag nsB "rule-result")).length = 0 :=
  ⟨rfl, rfl, rfl, rfl, by decide, rfl, by decide, by decide⟩

/-- C1 (amended): the namespace context is one mutable binding, not
document-scoped.  Lookups against an externally resolved benchmark do use
the context derived from the benchmark document's root, but that context
replaces the scan document's: every later lookup against the scan document
(TestResult, rule-results, result children, target info) uses the resolved
context too, so each located rule-result bears the resolved namespace's tag. -/
theorem c1_amended_single_ns_context :
    ∀ (cache : List (String × String)) (fs : String → Option Element) (bb : Option String)
      (root bm tr : Element) (ns : String),
      resolveBenchmark cache fs bb root = .ok (bm, ns) →
      locateTestResult root ns = some tr →
      parse_nessus_xccdf_results cache fs root bb =
        .ok { target := targetInfoOf tr ns,
              stig_id := attrGetD bm "id" "Unknown_STIG",
              stig_title := findtextChildD bm (qtag ns "title")
                (attrGetD bm "id" "Unknown_STIG"),
              results := (findallDesc tr (qtag ns "rule-result")).map
                (processRuleResult (buildRuleDefs bm ns) ns) } ∧
      ∀ e ∈ findallDesc tr (qtag ns "rule-result"), e.tag = qtag ns "rule-result" := by
  intro cache fs bb root bm tr ns h1 h2
  constructor
  · unfold parse_nessus_xccdf_results
    simp only [h1, h2]
  · intro e he
    unfold findallDesc at he
    have := (List.mem_filter.mp he).2
    simpa using this

/-- C1 witness: the amended statement at the concrete `nsA` scan / `nsB`
benchmark pair. -/
theorem c1_witness :
    resolveBenchmark c1cache c1fs none scanRootExt = .ok (bmRootB, nsB) ∧
    locateTestResult scanRootExt nsB = some scanTestResult ∧
    parse_nessus_xccdf_results c1cache c1fs scanRootExt none =
      .ok { target := targetInfoOf scanTestResult nsB,
            stig_id := attrGetD bmRootB "id" "Unknown_STIG",
            stig_title := findtextChildD bmRootB (qtag nsB "title")
              (attrGetD bmRootB "id" "Unknown_STIG"),
            results := (findallDesc scanTestResult (qtag nsB "rule-result")).map
              (processRuleResult (buildRuleDefs bmRootB nsB) nsB) } :=
  ⟨rfl, rfl,
   (c1_amended_single_ns_context c1cache c1fs none scanRootExt bmRootB scanTestResult nsB
     rfl rfl).1⟩

/-- C4: when a scan document parses successfully, its findings are exactly
the image of the located rule-results under per-rule-result processing — one
finding per located rule-result, in input order, with equal counts — and a
rule-result whose `idref` misses the rule index yields the placeholder
finding: identifier fields and title equal to the raw `idref`, severity
`medium`, all text fields empty. -/
theorem c4_one_finding_per_rule_result :
    (∀ (cache : List (String × String)) (fs : String → Option Element) (bb : Option String)
        (root bm tr : Element) (ns : String) (out : ParseOutput),
      resolveBenchmark cache fs bb root = .ok (bm, ns) →
      locateTestResult root ns = some tr →
      parse_nessus_xccdf_results cache fs root bb = .ok out →
      locatedRuleResults cache fs bb root = .ok (findallDesc tr (qtag ns "rule-result")) ∧
      out.results = (findallDesc tr (qtag ns "rule-result")).map
        (processRuleResult (buildRuleDefs bm ns) ns) ∧
      out.results.length = (findallDesc tr (qtag ns "rule-result")).length) ∧
    (∀ (defs : List (String × RuleDef)) (ns : String) (rr : Element),
      dictGet defs (attrGetD rr "idref" "") = none →
      (processRuleResult defs ns rr).rule_id = attrGetD rr "idref" "" ∧
      (processRuleResult defs ns rr).vuln_id = attrGetD rr "idref" "" ∧
      (processRuleResult defs ns rr).group_id = attrGetD rr "idref" "" ∧
      (processRuleResult defs ns rr).rule_title = attrGetD rr "idref" "" ∧
      (processRuleResult defs ns rr).severity = "medium" ∧
      (processRuleResult defs ns rr).group_title = "" ∧
      (processRuleResult defs ns rr).description = "" ∧
      (processRuleResult defs ns rr).check_content = "" ∧
      (processRuleResult defs ns rr).fix_text = "" ∧
      (processRuleResult defs ns rr).rule_ver = "" ∧
      (processRuleResult defs ns rr).cci_ref = "") := by
  constructor
  · intro cache fs bb root bm tr ns out h1 h2 h3
    unfold parse_nessus_xccdf_results at h3
    simp only [h1, h2] at h3
    have hout := (Except.ok.injEq _ _).mp h3
    refine ⟨?_, ?_, ?_⟩
    · unfold locatedRuleResults
      simp only [h1, h2]
    · rw [← hout]
    · rw [← hout]
      exact List.length_map _ _
  · intro defs ns rr h
    refine ⟨?_, ?_, ?_, ?_, ?_, ?_, ?_, ?_, ?_, ?_, ?_⟩ <;>
      simp [processRuleResult, placeholderRuleDef, h]

/-- C4 witness: the embedded-benchmark document with one matched and one
unmatched rule-result — two rule-results, two findings, the second a
placeholder. -/
theorem c4_witness :
    resolveBenchmark [] c4fs none c4scan = .ok (c4bm, nsA) ∧
    locateTestResult c4scan nsA = some c4tr ∧
    parse_nessus_xccdf_results [] c4fs c4scan none = .ok c4out ∧
    locatedRuleResults [] c4fs none c4scan = .ok (findallDesc c4tr (qtag nsA "rule-result")) ∧
    c4out.results = (findallDesc c4tr (qtag nsA "rule-result")).map
      (processRuleResult (buildRuleDefs c4bm nsA) nsA) ∧
    c4out.results.length = (findallDesc c4tr (qtag nsA "rule-result")).length ∧
    c4out.results.length = 2 ∧
    dictGet (buildRuleDefs c4bm nsA) (attrGetD c4rr2 "idref" "") = none ∧
    (processRuleResult (buildRuleDefs c4bm nsA) nsA c4rr2).rule_id =
      attrGetD c4rr2 "idref" "" ∧
    (processRuleResult (buildRuleDefs c4bm nsA) nsA c4rr2).severity = "medium" :=
  ⟨rfl, rfl, rfl,
   (c4_one_finding_per_rule_result.1 [] c4fs none c4scan c4bm c4tr nsA c4out
     rfl rfl rfl).1,
   (c4_one_finding_per_rule_result.1 [] c4fs none c4scan c4bm c4tr nsA c4out
     rfl rfl rfl).2.1,
   (c4_one_finding_per_rule_result.1 [] c4fs none c4scan c4bm c4tr nsA c4out
     rfl rfl rfl).2.2,
   by decide, rfl,
   (c4_one_finding_per_rule_result.2 (buildRuleDefs c4bm nsA) nsA c4rr2 rfl).1,
   (c4_one_finding_per_rule_result.2 (buildRuleDefs c4bm nsA) nsA c4rr2 rfl).2.2.2.2.1⟩

/-- C5 counterexample: a scan document whose only rule-result sits under a
foreign namespace.  The claim's reading — rule-result lookup falls back to
the unqualified substring match — would locate it (the substring scan over
the TestResult's descendants finds exactly one candidate); the code locates
none and emits no findings. -/
theorem c5_counterexample :
    parse_nessus_xccdf_results [] c4fs c5root none = .ok c5out ∧
    c5out.results = [] ∧
    locateTestResult c5root (nsOf c5root) = some c5tr ∧
    (c5tr.descendants.filter (fun e => pyContains e.tag "rule-result")).length = 1 ∧
    (findallDesc c5tr (qtag (nsOf c5root) "rule-result")).length = 0 :=
  ⟨rfl, rfl, rfl, by decide, by decide⟩

/-- C5 (amended): only the TestResult lookup uses the full ordered fallback
chain — it fails exactly when no element's tag even contains the target name
as a substring; rule-result elements (and their result children, read by a
single direct-child lookup) are located by one namespace-qualified search
only, so an element carried under a namespace other than the active one is
not located. -/
theorem c5_amended_lookup_strategies :
    (∀ (root : Element) (ns : String),
      locateTestResult root ns = none ↔
        ∀ e ∈ Element.iterAll root, pyContains e.tag "TestResult" = false) ∧
    (∀ (tr e : Element) (ns : String),
      e ∈ findallDesc tr (qtag ns "rule-result") ↔
        e ∈ tr.descendants ∧ e.tag = qtag ns "rule-result") := by
  constructor
  · exact locateTestResult_none_iff
  · intro tr e ns
    unfold findallDesc
    rw [List.mem_filter]
    constructor
    · rintro ⟨m1, m2⟩
      exact ⟨m1, by simpa using m2⟩
    · rintro ⟨m1, m2⟩
      exact ⟨m1, by simpa using m2⟩

/-- C5 witness: the amended characterizations at concrete documents — a
document with no TestResult anywhere, and the foreign-namespace rule-result
located if and only if queried under its own namespace. -/
theorem c5_witness :
    locateTestResult c5plain nsA = none ∧
    c5rr ∈ findallDesc c5tr (qtag nsC "rule-result") :=
  ⟨(c5_amended_lookup_strategies.1 c5plain nsA).mpr (by decide),
   (c5_amended_lookup_strategies.2 c5tr c5rr nsC).mpr ⟨List.Mem.head _, rfl⟩⟩
